import Mathlib

/-!
Verification of the streaming-worker, pipeline-runner and send/persistence logic of
the BOFFIN/OLLAMA GUI (src/ollama_gui.py), as a shallow embedding in Lean.
-/

namespace OllamaGui

/-- Whitespace test for the ASCII characters removed by Python `str.strip()`
(space, tab, newline, carriage return, vertical tab, form feed). -/
def pyIsSpace (c : Char) : Bool :=
  c = ' ' || c = '\t' || c = '\n' || c = '\r' || c = '\x0b' || c = '\x0c'

/-- List-level body of Python `str.strip()`: drop whitespace from the front, then from
the back. -/
def stripChars (l : List Char) : List Char :=
  ((l.dropWhile pyIsSpace).reverse.dropWhile pyIsSpace).reverse

/-- Python `s.strip()`: remove leading and trailing whitespace from `s`. -/
def pyStrip (s : String) : String :=
  String.mk (stripChars s.data)

/-- Concatenation of a list of strings in order, used to state the accumulated-response
and emitted-token properties. -/
def concatAll (l : List String) : String := l.foldr (· ++ ·) ""

/-- One line of the streaming HTTP response body as seen by the `for line in r.iter_lines()`
loop: either a line that is skipped (empty, or `json.loads` fails), or a parsed JSON object
with its optional `message.content` string and its `done` flag. -/
inductive RespLine where
  | malformed : RespLine
  | chunk : Option String → Bool → RespLine
deriving DecidableEq

/-- The mutable loop state of `DirectOllamaThread.run` / `CustomCrewThread.run_agent_inline`:
`response` accumulates every content fragment, `buffer` holds content not yet emitted,
`chunks` counts content fragments, and `emits` records the payloads of the `token` signals
emitted so far, in order. -/
structure LoopState where
  response : String
  buffer : String
  chunks : Nat
  emits : List String
deriving DecidableEq

/-- Handling of one parsed line's optional `message.content` (identical in both worker
loops, src/ollama_gui.py lines 197-206 and 257-266): extend `response` and `buffer`, bump
the chunk count, and emit the buffer when the timing test
`now - self.last_flush > 0.05` (abstracted as `flush` applied to the chunk number) passes. -/
def contentStep (flush : Nat → Bool) (st : LoopState) : Option String → LoopState
  | none => st
  | some tok =>
    let resp := st.response ++ tok
    let cnt := st.chunks + 1
    let buf := st.buffer ++ tok
    if flush cnt then ⟨resp, "", cnt, st.emits ++ [buf]⟩ else ⟨resp, buf, cnt, st.emits⟩

/-- The `for line in r.iter_lines()` loop of `DirectOllamaThread.run`
(src/ollama_gui.py lines 188-208). `running n` is the value of `self.is_running()` at the
check opening the `n`-th iteration (0-based). Returns the final state and whether the loop
exited through `break` (stop requested or `done` seen). -/
def directLoop (running flush : Nat → Bool) : List RespLine → Nat → LoopState → LoopState × Bool
  | [], _, st => (st, false)
  | l :: ls, n, st =>
    if running n then
      match l with
      | .malformed => directLoop running flush ls (n + 1) st
      | .chunk c done =>
        let st' := contentStep flush st c
        if done then (st', true) else directLoop running flush ls (n + 1) st'
    else (st, true)

/-- One streaming transport interaction: the response lines delivered in order, then
optionally an exception (mid-stream network failure, or — with `lines = []` —
a connection failure or the `raise_for_status` of a non-success HTTP status) that is
reached only if the loop consumes the whole stream without breaking. -/
structure Transport where
  lines : List RespLine
  failure : Option String
deriving DecidableEq

/-- Terminal outcome of `DirectOllamaThread.run`: the `finished` signal with the stripped
accumulated text and the chunk count, or the `error` signal payload. -/
inductive DirectOutcome where
  | finished : String → Nat → DirectOutcome
  | errored : String → DirectOutcome
deriving DecidableEq

/-- `DirectOllamaThread.run` (src/ollama_gui.py lines 180-214): returns the `token`
signal payloads in order together with the terminal outcome. The exception is raised
(and caught, emitting `error`, with no final flush) only when the loop consumed every line
without breaking; otherwise the remaining buffer is flushed and `finished` carries
`response.strip()` and the chunk count. -/
def directRun (running flush : Nat → Bool) (t : Transport) : List String × DirectOutcome :=
  let r := directLoop running flush t.lines 0 ⟨"", "", 0, []⟩
  match t.failure with
  | some e =>
    if r.2 then
      (if r.1.buffer = "" then r.1.emits else r.1.emits ++ [r.1.buffer],
       .finished (pyStrip r.1.response) r.1.chunks)
    else (r.1.emits, .errored e)
  | none =>
    (if r.1.buffer = "" then r.1.emits else r.1.emits ++ [r.1.buffer],
     .finished (pyStrip r.1.response) r.1.chunks)

/-- The zero-or-one content fragments carried by one parsed line. -/
def optFrag : Option String → List String
  | none => []
  | some t => [t]

/-- The content fragments a line list delivers to the loop, in order: contents of parsed
lines up to and including the first line carrying `done = true`. -/
def deliveredFrags : List RespLine → List String
  | [] => []
  | .malformed :: ls => deliveredFrags ls
  | .chunk c done :: ls => optFrag c ++ if done then [] else deliveredFrags ls

/-- A transport line carrying exactly one content fragment and no `done` flag. -/
def fragLine (f : String) : RespLine := RespLine.chunk (some f) false

/-- Whether a line survives the `json.loads` / empty-line test instead of being skipped. -/
def lineParses : RespLine → Bool
  | .malformed => false
  | .chunk _ _ => true

/-- The loop of `CustomCrewThread.run_agent_inline` (src/ollama_gui.py lines 248-266):
identical to the direct loop except that the parsed object's `done` flag is never
consulted, so the loop only ends at stream end or on a stop request. -/
def inlineLoop (running flush : Nat → Bool) : List RespLine → Nat → LoopState → LoopState × Bool
  | [], _, st => (st, false)
  | l :: ls, n, st =>
    if running n then
      match l with
      | .malformed => inlineLoop running flush ls (n + 1) st
      | .chunk c _ => inlineLoop running flush ls (n + 1) (contentStep flush st c)
    else (st, true)

/-- Result of `CustomCrewThread.run_agent_inline`: the `token` signal payloads, the
`error` signal payloads, and the returned string. -/
structure InlineResult where
  emits : List String
  errEmits : List String
  ret : String
deriving DecidableEq

/-- `CustomCrewThread.run_agent_inline` (src/ollama_gui.py lines 241-271): the try block
runs the loop; an exception reached at stream end is caught and emitted as
`[ERROR in model: msg]`; the final buffer flush and `return response.strip()` sit outside
the try block and always execute, so the caller always receives a string. -/
def runAgentInline (model : String) (running flush : Nat → Bool) (t : Transport) :
    InlineResult :=
  let r := inlineLoop running flush t.lines 0 ⟨"", "", 0, []⟩
  let errs :=
    match t.failure with
    | some e => if r.2 then [] else ["[ERROR in " ++ model ++ ": " ++ e ++ "]"]
    | none => []
  ⟨if r.1.buffer = "" then r.1.emits else r.1.emits ++ [r.1.buffer], errs,
   pyStrip r.1.response⟩

/-- Python `template.format(previous=prev)` for templates whose only replacement field is
`{previous}`: scan left to right and replace each occurrence of the ten-character
placeholder with `rep`. -/
def substPrevious (rep : List Char) : List Char → List Char
  | '{' :: 'p' :: 'r' :: 'e' :: 'v' :: 'i' :: 'o' :: 'u' :: 's' :: '}' :: rest =>
      rep ++ substPrevious rep rest
  | c :: rest => c :: substPrevious rep rest
  | [] => []

/-- String-level wrapper for the `{previous}` substitution of `input_prompt.format(...)`. -/
def pyFormatPrevious (tmpl prev : String) : String :=
  String.mk (substPrevious prev.data tmpl.data)

/-- One agent of a crew configuration: `{role, model, system_prompt, input_prompt}`
(the `system_prompt` is stripped inside the run loop, which does not affect the
properties stated here). -/
structure AgentStep where
  role : String
  model : String
  system_prompt : String
  input_prompt : String
deriving DecidableEq

/-- A chat message: role and content, plus whether an `images` payload is attached
(only `send` ever attaches one). -/
structure OMsg where
  role : String
  content : String
  hasImages : Bool
deriving DecidableEq

/-- `[m['content'] for m in self.history_messages if m['role'] == 'user'][-6:]`
(src/ollama_gui.py line 293). -/
def lastUserMessages (history : List OMsg) : List String :=
  let l := (history.filter (fun m => m.role = "user")).map (fun m => m.content)
  l.drop (l.length - 6)

/-- What one executed pipeline step leaves in the trace: the agent's role, the rendered
input prompt sent to the model, and the (placeholder-substituted) output. -/
structure CrewStepTrace where
  role : String
  input : String
  out : String
deriving DecidableEq

/-- The `for i, agent in enumerate(self.crew_config, 1)` loop of `CustomCrewThread.run`
(src/ollama_gui.py lines 278-303). `i` is the 1-based step number, `previous` the
`previous` variable, `running i` the `self.is_running()` check opening iteration `i`, and
`oracle i` the string returned by `run_agent_inline` for step `i`. Each iteration renders
the input template with `{previous}` substituted (appending, at step 1 only, the recent
user history), calls the model, replaces an empty output by the `[No response]`
placeholder, and chains it as the next `previous`. -/
def crewStepsAux (running : Nat → Bool) (oracle : Nat → String) (history : List OMsg) :
    List AgentStep → Nat → String → List CrewStepTrace
  | [], _, _ => []
  | a :: rest, i, previous =>
    if running i then
      let rendered := pyFormatPrevious a.input_prompt previous
      let uh := lastUserMessages history
      let input :=
        if i = 1 ∧ history ≠ [] ∧ uh ≠ [] then
          rendered ++ "\n\nPrevious user messages:\n" ++ String.intercalate "\n" uh
        else rendered
      let rawOut := oracle i
      let out := if rawOut = "" then "[No response]" else rawOut
      ⟨a.role, input, out⟩ :: crewStepsAux running oracle history rest (i + 1) out
    else []

/-- The executed-step trace of `CustomCrewThread.run`, which starts with
`previous = self.user_prompt` and step number 1. -/
def crewTrace (cfg : List AgentStep) (userPrompt : String) (history : List OMsg)
    (running : Nat → Bool) (oracle : Nat → String) : List CrewStepTrace :=
  crewStepsAux running oracle history cfg 1 userPrompt

/-- The transcript block `f"### {role} Output\n{out}\n\n---\n\n"` appended for one
executed step (src/ollama_gui.py line 302). -/
def crewBlock (t : CrewStepTrace) : String :=
  "### " ++ t.role ++ " Output\n" ++ t.out ++ "\n\n---\n\n"

/-- The final string carried by `CustomCrewThread.run`'s `finished` signal: the report
header, one block per executed step, and the stopped marker when `is_running()` is false
after the loop (src/ollama_gui.py lines 275, 302, 305-307). -/
def crewFinal (cfg : List AgentStep) (userPrompt : String) (history : List OMsg)
    (running : Nat → Bool) (oracle : Nat → String) (runningAtEnd : Bool) : String :=
  let body := "# OLLAMA CUSTOM CREW REPORT\n\n**User Request:** " ++ userPrompt
      ++ "\n\n---\n\n"
      ++ concatAll ((crewTrace cfg userPrompt history running oracle).map crewBlock)
  if runningAtEnd then body else body ++ "\n\n[GENERATION STOPPED BY USER]"

/-- The `OllamaGUI` state consulted by `send` when deciding whether to start a worker
(src/ollama_gui.py lines 1012-1078). `threadRunning` records whether a previously started
worker is still running and `inFlight` counts the workers currently running against the
current conversation; `send` itself reads neither. -/
structure SendState where
  inputText : String
  advancedMode : Bool
  crewConfig : List AgentStep
  threadRunning : Bool
  inFlight : Nat
deriving DecidableEq

/-- Observable outcome of one `send` invocation: whether a worker thread was created and
started, how many workers are then in flight against the conversation (a started worker
adds one: `send` never stops or joins the previous worker), and the delays in
milliseconds of the `QTimer.singleShot` watchdogs scheduled. -/
structure SendResult where
  started : Bool
  inFlight : Nat
  timers : List Nat
deriving DecidableEq

/-- `OllamaGUI.send`'s control flow around starting workers (src/ollama_gui.py lines
1012-1078): return if the stripped prompt is empty; in crew mode with no crew configured,
return; otherwise create the worker thread, start it, and schedule
`QTimer.singleShot(600000, self.thread.stop)`. No branch consults
`self.thread.isRunning()` and no code path disables the send button. -/
def ollamaSend (st : SendState) : SendResult :=
  let prompt := pyStrip st.inputText
  if prompt = "" then ⟨false, st.inFlight, []⟩
  else if st.advancedMode ∧ st.crewConfig = [] then ⟨false, st.inFlight, []⟩
  else ⟨true, st.inFlight + 1, [600000]⟩

/-- The annotation appended by `on_generation_finished` when the worker was stopped. -/
def stoppedMarker : String := "\n\n[GENERATION STOPPED BY USER]"

/-- The persistence effect of `OllamaGUI.on_generation_finished`
(src/ollama_gui.py lines 1087-1099) on the conversation's stored message list: when
`response` is non-empty, append the stopped marker if the worker was stopped and persist
one assistant message; when `response` is empty, persist nothing. -/
def onGenerationFinishedDB (msgs : List OMsg) (response : String) (stopped : Bool) :
    List OMsg :=
  if response = "" then msgs
  else msgs ++ [⟨"assistant", if stopped then response ++ stoppedMarker else response, false⟩]

/-- Python `list.insert(-1, x)`: insert before the last element (at the front when the
list is empty). -/
def pyInsertNeg1 (xs : List OMsg) (x : OMsg) : List OMsg :=
  xs.take (xs.length - 1) ++ x :: xs.drop (xs.length - 1)

/-- The fixed instruction prefix of the retrieval-augmentation system message
(src/ollama_gui.py line 1050). -/
def ragInstruction : String :=
  "Use ONLY these facts if relevant. If unsure, say \x27not found\x27:\n\n"

/-- The request-message list built by `OllamaGUI.send` before retrieval augmentation
(src/ollama_gui.py lines 1041-1044): the history messages, plus an extra user message
carrying the image payload when an image is attached. -/
def baseMessages (history : List OMsg) (prompt : String) (imageAttached : Bool) :
    List OMsg :=
  let msgs := history.map (fun m => OMsg.mk m.role m.content false)
  if imageAttached then msgs ++ [⟨"user", prompt, true⟩] else msgs

/-- The retrieval-augmentation step of `OllamaGUI.send` (src/ollama_gui.py lines
1046-1052) on top of `baseMessages`: `docs = none` models no configured retriever;
`docs = some ds` models a configured retriever whose `invoke` returned `ds`. -/
def buildMessages (history : List OMsg) (prompt : String) (imageAttached : Bool)
    (docs : Option (List String)) : List OMsg :=
  match docs with
  | none => baseMessages history prompt imageAttached
  | some ds =>
    if ds = [] then baseMessages history prompt imageAttached
    else
      pyInsertNeg1 (baseMessages history prompt imageAttached)
        ⟨"system", ragInstruction ++ (String.intercalate "\n\n" ds).take 4000, false⟩

theorem concatAll_nil : concatAll [] = "" := rfl

theorem concatAll_cons (a : String) (l : List String) :
    concatAll (a :: l) = a ++ concatAll l := rfl

theorem concatAll_append (l₁ l₂ : List String) :
    concatAll (l₁ ++ l₂) = concatAll l₁ ++ concatAll l₂ := by
  induction l₁ with
  | nil => simp [concatAll_nil, String.empty_append]
  | cons a l ih => simp [concatAll_cons, ih, String.append_assoc]

theorem concatAll_flush (emits : List String) (buf : String) :
    concatAll (if buf = "" then emits else emits ++ [buf]) = concatAll emits ++ buf := by
  by_cases hb : buf = ""
  · simp [hb, String.append_empty]
  · simp [hb, concatAll_append, concatAll_cons, concatAll_nil, String.append_empty]

theorem stripChars_ne_of_boundary (l : List Char) (h : l ≠ [])
    (hsp : pyIsSpace (l.head h) = true ∨ pyIsSpace (l.getLast h) = true) :
    stripChars l ≠ l := by
  have hlen : (stripChars l).length < l.length := by
    rcases hsp with hsp | hsp
    · obtain ⟨a, t, rfl⟩ : ∃ a t, l = a :: t := by
        cases l with
        | nil => exact absurd rfl h
        | cons a t => exact ⟨a, t, rfl⟩
      have ha : pyIsSpace a = true := by simpa using hsp
      have hd : (a :: t).dropWhile pyIsSpace = t.dropWhile pyIsSpace := by
        simp [List.dropWhile_cons, ha]
      calc (stripChars (a :: t)).length
          = (((a :: t).dropWhile pyIsSpace).reverse.dropWhile pyIsSpace).length := by
            simp [stripChars]
        _ ≤ ((a :: t).dropWhile pyIsSpace).reverse.length :=
            (List.dropWhile_suffix pyIsSpace).length_le
        _ = (t.dropWhile pyIsSpace).length := by simp [hd]
        _ ≤ t.length := (List.dropWhile_suffix pyIsSpace).length_le
        _ < (a :: t).length := by simp
    · by_cases hfront : (l.dropWhile pyIsSpace).length = l.length
      · have hfeq : l.dropWhile pyIsSpace = l :=
          (List.dropWhile_suffix pyIsSpace).eq_of_length hfront
        have hrne : l.reverse ≠ [] := by simpa using h
        obtain ⟨b, r, hbr⟩ : ∃ b r, l.reverse = b :: r := by
          cases hrev : l.reverse with
          | nil => exact absurd hrev hrne
          | cons b r => exact ⟨b, r, rfl⟩
        have hb : pyIsSpace b = true := by
          have hh : l.reverse.head? = l.getLast? := List.head?_reverse l
          rw [hbr, List.head?_cons, List.getLast?_eq_getLast l h] at hh
          obtain rfl : b = l.getLast h := Option.some.inj hh
          exact hsp
        have hd : l.reverse.dropWhile pyIsSpace = r.dropWhile pyIsSpace := by
          rw [hbr]
          simp [List.dropWhile_cons, hb]
        calc (stripChars l).length
            = ((l.reverse.dropWhile pyIsSpace).reverse).length := by
              simp [stripChars, hfeq]
          _ = (r.dropWhile pyIsSpace).length := by simp [hd]
          _ ≤ r.length := (List.dropWhile_suffix pyIsSpace).length_le
          _ < l.reverse.length := by rw [hbr]; simp
          _ = l.length := by simp
      · have hlt : (l.dropWhile pyIsSpace).length < l.length :=
          lt_of_le_of_ne (List.dropWhile_suffix pyIsSpace).length_le hfront
        calc (stripChars l).length
            = (((l.dropWhile pyIsSpace).reverse.dropWhile pyIsSpace)).length := by
              simp [stripChars]
          _ ≤ (l.dropWhile pyIsSpace).reverse.length :=
              (List.dropWhile_suffix pyIsSpace).length_le
          _ = (l.dropWhile pyIsSpace).length := by simp
          _ < l.length := hlt
  intro heq
  rw [heq] at hlen
  exact lt_irrefl _ hlen

theorem pyStrip_ne_of_boundary (s : String) (h : s.data ≠ [])
    (hsp : pyIsSpace (s.data.head h) = true ∨ pyIsSpace (s.data.getLast h) = true) :
    pyStrip s ≠ s := by
  intro heq
  have hdata : stripChars s.data = s.data := congrArg String.data heq
  exact stripChars_ne_of_boundary s.data h hsp hdata

theorem contentStep_spec (flush : Nat → Bool) (st : LoopState) (c : Option String) :
    (contentStep flush st c).response = st.response ++ concatAll (optFrag c)
    ∧ (contentStep flush st c).chunks = st.chunks + (optFrag c).length
    ∧ concatAll (contentStep flush st c).emits ++ (contentStep flush st c).buffer
        = (concatAll st.emits ++ st.buffer) ++ concatAll (optFrag c) := by
  cases c with
  | none => simp [contentStep, optFrag, concatAll_nil, String.append_empty]
  | some t =>
    by_cases hf : flush (st.chunks + 1) <;>
      simp [contentStep, optFrag, hf, concatAll_cons, concatAll_nil, concatAll_append,
        String.append_empty, String.append_assoc]

theorem directLoop_true_inv (flush : Nat → Bool) :
    ∀ (ls : List RespLine) (n : Nat) (st : LoopState),
      (directLoop (fun _ => true) flush ls n st).1.response
          = st.response ++ concatAll (deliveredFrags ls)
      ∧ (directLoop (fun _ => true) flush ls n st).1.chunks
          = st.chunks + (deliveredFrags ls).length
      ∧ concatAll (directLoop (fun _ => true) flush ls n st).1.emits
            ++ (directLoop (fun _ => true) flush ls n st).1.buffer
          = (concatAll st.emits ++ st.buffer) ++ concatAll (deliveredFrags ls)
  | [], n, st => by
    simp [directLoop, deliveredFrags, concatAll_nil, String.append_empty]
  | .malformed :: ls, n, st => by
    simpa [directLoop, deliveredFrags] using directLoop_true_inv flush ls (n + 1) st
  | .chunk c done :: ls, n, st => by
    obtain ⟨h1, h2, h3⟩ := contentStep_spec flush st c
    by_cases hd : done
    · simp [directLoop, hd, deliveredFrags, h1, h2, h3, concatAll_append,
        String.append_empty]
    · obtain ⟨ih1, ih2, ih3⟩ := directLoop_true_inv flush ls (n + 1) (contentStep flush st c)
      simp [directLoop, hd, deliveredFrags, ih1, ih2, ih3, h1, h2, h3, concatAll_append,
        String.append_assoc, Nat.add_assoc]

theorem directRun_true_none (flush : Nat → Bool) (ls : List RespLine) :
    concatAll (directRun (fun _ => true) flush ⟨ls, none⟩).1
        = concatAll (deliveredFrags ls)
    ∧ (directRun (fun _ => true) flush ⟨ls, none⟩).2
        = .finished (pyStrip (concatAll (deliveredFrags ls))) (deliveredFrags ls).length := by
  obtain ⟨h1, h2, h3⟩ := directLoop_true_inv flush ls 0 ⟨"", "", 0, []⟩
  refine ⟨?_, ?_⟩
  · show concatAll (if _ = "" then _ else _) = _
    rw [concatAll_flush, h3]
    simp [concatAll_nil, String.empty_append]
  · show DirectOutcome.finished _ _ = _
    rw [h1, h2]
    simp [String.empty_append]

theorem deliveredFrags_fragLine (fs : List String) :
    deliveredFrags (fs.map fragLine) = fs := by
  induction fs with
  | nil => rfl
  | cons f fs ih => simp [fragLine, deliveredFrags, optFrag, ih]

theorem directLoop_deadline_take (flush : Nat → Bool) (k : Nat) :
    ∀ (ls : List RespLine) (n : Nat) (st : LoopState),
      (directLoop (fun m => decide (m < k)) flush ls n st).1
        = (directLoop (fun m => decide (m < k)) flush (ls.take (k - n)) n st).1
  | [], n, st => by simp [directLoop]
  | l :: ls, n, st => by
    by_cases hn : n < k
    · have hk : k - n = (k - (n + 1)) + 1 := by omega
      rw [hk, List.take_succ_cons]
      cases l with
      | malformed =>
        simp only [directLoop, hn, decide_eq_true_eq]
        exact directLoop_deadline_take flush k ls (n + 1) st
      | chunk c done =>
        by_cases hd : done
        · simp [directLoop, hn, hd]
        · simp only [directLoop, hn, decide_eq_true_eq, hd, if_false, Bool.false_eq_true]
          exact directLoop_deadline_take flush k ls (n + 1) (contentStep flush st c)
    · have hk : k - n = 0 := by omega
      rw [hk, List.take_zero]
      simp [directLoop, hn]

theorem directLoop_deadline_eq_true (flush : Nat → Bool) (k : Nat) :
    ∀ (ls : List RespLine) (n : Nat) (st : LoopState), n + ls.length ≤ k →
      directLoop (fun m => decide (m < k)) flush ls n st
        = directLoop (fun _ => true) flush ls n st
  | [], n, st, _ => by simp [directLoop]
  | l :: ls, n, st, hle => by
    have hn : n < k := by simp at hle; omega
    have hrest : (n + 1) + ls.length ≤ k := by simp at hle; omega
    cases l with
    | malformed =>
      simp only [directLoop, hn, decide_eq_true_eq]
      exact directLoop_deadline_eq_true flush k ls (n + 1) st hrest
    | chunk c done =>
      by_cases hd : done
      · simp [directLoop, hn, hd]
      · simp only [directLoop, hn, decide_eq_true_eq, hd, if_false, Bool.false_eq_true]
        exact directLoop_deadline_eq_true flush k ls (n + 1) (contentStep flush st c) hrest

theorem directLoop_filter (flush : Nat → Bool) :
    ∀ (ls : List RespLine) (n m : Nat) (st : LoopState),
      directLoop (fun _ => true) flush ls n st
        = directLoop (fun _ => true) flush (ls.filter lineParses) m st
  | [], n, m, st => by simp [directLoop]
  | .malformed :: ls, n, m, st => by
    have h : lineParses RespLine.malformed = false := rfl
    rw [List.filter_cons_of_neg (by simp [h])]
    simpa [directLoop] using directLoop_filter flush ls (n + 1) m st
  | .chunk c done :: ls, n, m, st => by
    have h : lineParses (RespLine.chunk c done) = true := rfl
    rw [List.filter_cons_of_pos h]
    by_cases hd : done
    · simp [directLoop, hd]
    · simp only [directLoop, hd, if_false, Bool.false_eq_true]
      exact directLoop_filter flush ls (n + 1) (m + 1) (contentStep flush st c)

theorem inlineLoop_true_no_break (flush : Nat → Bool) :
    ∀ (ls : List RespLine) (n : Nat) (st : LoopState),
      (inlineLoop (fun _ => true) flush ls n st).2 = false
  | [], _, _ => rfl
  | .malformed :: ls, n, st => by
    simpa [inlineLoop] using inlineLoop_true_no_break flush ls (n + 1) st
  | .chunk c _ :: ls, n, st => by
    simpa [inlineLoop] using inlineLoop_true_no_break flush ls (n + 1) (contentStep flush st c)

theorem crewStepsAux_roles (oracle : Nat → String) (hist : List OMsg) :
    ∀ (agents : List AgentStep) (i : Nat) (prev : String),
      (crewStepsAux (fun _ => true) oracle hist agents i prev).map (fun t => t.role)
        = agents.map (fun a => a.role)
  | [], _, _ => rfl
  | a :: rest, i, prev => by
    simp only [crewStepsAux, if_true, List.map_cons, List.map]
    exact congrArg (a.role :: ·) (crewStepsAux_roles oracle hist rest (i + 1) _)

theorem crewStepsAux_out (oracle : Nat → String) (hist : List OMsg) :
    ∀ (agents : List AgentStep) (i : Nat) (prev : String) (k : Nat),
      ((crewStepsAux (fun _ => true) oracle hist agents i prev)[k]?).map (fun t => t.out)
        = (agents[k]?).map
            (fun _ => if oracle (i + k) = "" then "[No response]" else oracle (i + k))
  | [], _, _, _ => by simp [crewStepsAux]
  | a :: rest, i, prev, 0 => by simp [crewStepsAux]
  | a :: rest, i, prev, k + 1 => by
    simp only [crewStepsAux, if_true, List.getElem?_cons_succ]
    have ih := crewStepsAux_out oracle hist rest (i + 1)
      (if oracle i = "" then "[No response]" else oracle i) k
    rw [ih]
    have : i + 1 + k = i + (k + 1) := by omega
    rw [this]

theorem crewStepsAux_head_input (oracle : Nat → String) (hist : List OMsg)
    (agents : List AgentStep) (i : Nat) (prev : String) (hi : 2 ≤ i) :
    ((crewStepsAux (fun _ => true) oracle hist agents i prev)[0]?).map (fun t => t.input)
      = (agents[0]?).map (fun a => pyFormatPrevious a.input_prompt prev) := by
  cases agents with
  | nil => simp [crewStepsAux]
  | cons a rest =>
    have hne : ¬(i = 1 ∧ hist ≠ [] ∧ lastUserMessages hist ≠ []) := by
      rintro ⟨h1, -⟩
      omega
    simp [crewStepsAux, hne]

theorem crewStepsAux_input (oracle : Nat → String) (hist : List OMsg) :
    ∀ (agents : List AgentStep) (i : Nat) (prev : String) (k : Nat), 1 ≤ i →
      ((crewStepsAux (fun _ => true) oracle hist agents i prev)[k + 1]?).map
          (fun t => t.input)
        = (agents[k + 1]?).map
            (fun a => pyFormatPrevious a.input_prompt
              (if oracle (i + k) = "" then "[No response]" else oracle (i + k)))
  | [], _, _, _, _ => by simp [crewStepsAux]
  | a :: rest, i, prev, 0, hi => by
    simp only [crewStepsAux, if_true, List.getElem?_cons_succ]
    have h := crewStepsAux_head_input oracle hist rest (i + 1)
      (if oracle i = "" then "[No response]" else oracle i) (by omega)
    rw [h]
    have : i + 0 = i := by omega
    rw [this]
  | a :: rest, i, prev, k + 1, hi => by
    simp only [crewStepsAux, if_true, List.getElem?_cons_succ]
    have ih := crewStepsAux_input oracle hist rest (i + 1)
      (if oracle i = "" then "[No response]" else oracle i) k (by omega)
    rw [ih]
    have : i + 1 + k = i + (k + 1) := by omega
    rw [this]

theorem pyInsertNeg1_cons₂ (a b : OMsg) (t : List OMsg) (x : OMsg) :
    pyInsertNeg1 (a :: b :: t) x = a :: pyInsertNeg1 (b :: t) x := by
  simp [pyInsertNeg1, List.take_succ_cons, List.drop_succ_cons]

theorem pyInsertNeg1_eq (x : OMsg) :
    ∀ (xs : List OMsg), pyInsertNeg1 xs x = xs.dropLast ++ x :: xs.getLast?.toList
  | [] => rfl
  | [a] => rfl
  | a :: b :: t => by
    rw [pyInsertNeg1_cons₂, pyInsertNeg1_eq x (b :: t)]
    simp

/-- C4: for every sequence of fragments delivered by the transport, the worker's
accumulated `response` at completion is their concatenation in order, and the
concatenation of all `token` signal payloads covers every fragment exactly once in
order, for every timing-based coalescing schedule `flush` (coalescing batches fragments
but never drops, duplicates or reorders their text). -/
theorem fragments_concat_in_order (flush : Nat → Bool) (ls : List RespLine) :
    (directLoop (fun _ => true) flush ls 0 ⟨"", "", 0, []⟩).1.response
        = concatAll (deliveredFrags ls)
    ∧ concatAll (directRun (fun _ => true) flush ⟨ls, none⟩).1
        = concatAll (deliveredFrags ls) := by
  obtain ⟨h1, -, -⟩ := directLoop_true_inv flush ls 0 ⟨"", "", 0, []⟩
  obtain ⟨g1, -⟩ := directRun_true_none flush ls
  exact ⟨by simpa [String.empty_append] using h1, g1⟩

/-- C9: the text carried by the worker's `finished` signal is the concatenation of all
received fragments with leading and trailing whitespace stripped, while the token
signals stream the unstripped concatenation; hence whenever the fragment stream begins
or ends with whitespace, the finalized text differs from the incrementally streamed
text. -/
theorem finished_text_stripped (fs : List String) (flush : Nat → Bool) :
    (directRun (fun _ => true) flush ⟨fs.map fragLine, none⟩).2
        = DirectOutcome.finished (pyStrip (concatAll fs)) fs.length
    ∧ concatAll (directRun (fun _ => true) flush ⟨fs.map fragLine, none⟩).1 = concatAll fs
    ∧ ∀ (h : (concatAll fs).data ≠ []),
        (pyIsSpace ((concatAll fs).data.head h) = true
          ∨ pyIsSpace ((concatAll fs).data.getLast h) = true) →
        pyStrip (concatAll fs) ≠ concatAll fs := by
  obtain ⟨g1, g2⟩ := directRun_true_none flush (fs.map fragLine)
  rw [deliveredFrags_fragLine] at g1 g2
  exact ⟨g2, g1, fun h hsp => pyStrip_ne_of_boundary _ h hsp⟩

/-- C9 witness: for the single-fragment stream `" a"` (leading whitespace), the
`finished` signal carries `"a"` while the streamed text was `" a"`. -/
theorem finished_text_stripped_witness :
    (directRun (fun _ => true) (fun _ => false) ⟨[" a"].map fragLine, none⟩).2
        = DirectOutcome.finished "a" 1
    ∧ pyStrip (concatAll [" a"]) ≠ concatAll [" a"] := by
  have h := finished_text_stripped [" a"] (fun _ => false)
  refine ⟨?_, h.2.2 (by decide) (by decide)⟩
  rw [h.1]
  decide

/-- C3 (amended): if cancellation is requested after fragment `k` of `n` (`k < n`), the
worker emits no fragment after the `k`-th — the concatenation of its token signals is
exactly `F1++...++Fk` — and its `finished` signal carries `(F1++...++Fk).strip()` with
chunk count `k`; the completion handler then appends the literal marker
`"\n\n[GENERATION STOPPED BY USER]"` before persisting, provided the stripped text is
non-empty. -/
theorem cancel_after_k_fragments (fs : List String) (k : Nat) (flush : Nat → Bool)
    (hk : k < fs.length) :
    concatAll (directRun (fun n => decide (n < k)) flush ⟨fs.map fragLine, none⟩).1
        = concatAll (fs.take k)
    ∧ (directRun (fun n => decide (n < k)) flush ⟨fs.map fragLine, none⟩).2
        = DirectOutcome.finished (pyStrip (concatAll (fs.take k))) k
    ∧ ∀ (msgs : List OMsg), pyStrip (concatAll (fs.take k)) ≠ "" →
        onGenerationFinishedDB msgs (pyStrip (concatAll (fs.take k))) true
          = msgs ++ [⟨"assistant", pyStrip (concatAll (fs.take k)) ++ stoppedMarker,
              false⟩] := by
  have hstate : (directLoop (fun n => decide (n < k)) flush (fs.map fragLine) 0
        ⟨"", "", 0, []⟩).1
      = (directLoop (fun _ => true) flush ((fs.take k).map fragLine) 0
        ⟨"", "", 0, []⟩).1 := by
    rw [directLoop_deadline_take flush k (fs.map fragLine) 0 ⟨"", "", 0, []⟩,
      Nat.sub_zero, ← List.map_take,
      directLoop_deadline_eq_true flush k ((fs.take k).map fragLine) 0 ⟨"", "", 0, []⟩
        (by simp [List.length_take])]
  have hrun : directRun (fun n => decide (n < k)) flush ⟨fs.map fragLine, none⟩
      = directRun (fun _ => true) flush ⟨(fs.take k).map fragLine, none⟩ := by
    simp only [directRun]
    rw [hstate]
  obtain ⟨g1, g2⟩ := directRun_true_none flush ((fs.take k).map fragLine)
  rw [deliveredFrags_fragLine] at g1 g2
  have hlen : (fs.take k).length = k := by
    simp [List.length_take]
    omega
  refine ⟨by rw [hrun, g1], by rw [hrun, g2, hlen], ?_⟩
  intro msgs hne
  simp [onGenerationFinishedDB, hne]

/-- C3 witness: with fragments `[" hi", "yo"]` and cancellation after fragment 1, the
token signals deliver exactly `" hi"` and the `finished` signal carries the stripped
`"hi"` with chunk count 1. -/
theorem cancel_after_k_fragments_witness :
    concatAll (directRun (fun n => decide (n < 1)) (fun _ => false)
        ⟨[" hi", "yo"].map fragLine, none⟩).1 = " hi"
    ∧ (directRun (fun n => decide (n < 1)) (fun _ => false)
        ⟨[" hi", "yo"].map fragLine, none⟩).2 = DirectOutcome.finished "hi" 1 := by
  have h := cancel_after_k_fragments [" hi", "yo"] 1 (fun _ => false) (by decide)
  refine ⟨?_, ?_⟩
  · rw [h.1]
    decide
  · rw [h.2.1]
    decide

/-- C3 counterexample to the claim as stated: with fragments `[" hi", "yo"]` and
cancellation after fragment 1, the worker's final text is the stripped `"hi"`, and
neither it nor the persisted text `"hi\n\n[GENERATION STOPPED BY USER]"` has the
fragment concatenation `" hi"` as a prefix, so the final text is not the concatenation
`F1..Fk` with an annotation appended (the strip removed the leading space, and the
appended marker is `"\n\n[GENERATION STOPPED BY USER]"`, applied by the completion
handler only when the stripped text is non-empty). -/
theorem cancel_final_text_cex :
    (directRun (fun n => decide (n < 1)) (fun _ => false)
        ⟨[" hi", "yo"].map fragLine, none⟩).2 = DirectOutcome.finished "hi" 1
    ∧ (" hi".data.isPrefixOf "hi".data) = false
    ∧ onGenerationFinishedDB [] "hi" true
        = [⟨"assistant", "hi" ++ stoppedMarker, false⟩]
    ∧ (" hi".data.isPrefixOf ("hi" ++ stoppedMarker).data) = false := by
  decide

/-- C6: during a streaming call, lines that do not parse as JSON are silently skipped —
running the loop on a line list is identical to running it on the list with unparsable
lines removed — while a transport failure (network failure or non-success HTTP status)
that the stream reaches aborts the call and surfaces as the worker's `error` signal
payload: `DirectOllamaThread` emits the message itself and `run_agent_inline` emits the
`[ERROR in model: msg]` marker, still flushing its buffer and returning its accumulated
text, so no exception escapes a worker into the UI thread. -/
theorem transport_error_surfaced_malformed_skipped (flush : Nat → Bool)
    (ls : List RespLine) (e model : String)
    (hend : (directLoop (fun _ => true) flush ls 0 ⟨"", "", 0, []⟩).2 = false) :
    directRun (fun _ => true) flush ⟨ls, none⟩
        = directRun (fun _ => true) flush ⟨ls.filter lineParses, none⟩
    ∧ (directRun (fun _ => true) flush ⟨ls, some e⟩).2 = DirectOutcome.errored e
    ∧ (runAgentInline model (fun _ => true) flush ⟨ls, some e⟩).errEmits
        = ["[ERROR in " ++ model ++ ": " ++ e ++ "]"]
    ∧ (runAgentInline model (fun _ => true) flush ⟨ls, some e⟩).ret
        = (runAgentInline model (fun _ => true) flush ⟨ls, none⟩).ret
    ∧ (runAgentInline model (fun _ => true) flush ⟨ls, some e⟩).emits
        = (runAgentInline model (fun _ => true) flush ⟨ls, none⟩).emits := by
  refine ⟨?_, ?_, ?_, rfl, rfl⟩
  · simp only [directRun]
    rw [directLoop_filter flush ls 0 0 ⟨"", "", 0, []⟩]
  · simp [directRun, hend]
  · simp [runAgentInline, inlineLoop_true_no_break flush ls 0 ⟨"", "", 0, []⟩]

/-- C6 witness: a transport that delivers one malformed line and then fails with
`"boom"` makes the direct worker emit exactly the error signal `"boom"`. -/
theorem transport_error_witness :
    (directRun (fun _ => true) (fun _ => false) ⟨[RespLine.malformed], some "boom"⟩).2
      = DirectOutcome.errored "boom" :=
  (transport_error_surfaced_malformed_skipped (fun _ => false) [RespLine.malformed]
    "boom" "m" (by decide)).2.1

/-- C5: a pipeline run executes its agent steps strictly in list order (the executed
trace lists exactly the configured roles, in order), and for every step after the first
whose predecessor produced non-empty output, the rendered input is the step's template
with every `{previous}` placeholder replaced by exactly the predecessor's output string,
character for character. Positions are 0-based: trace position `k` is pipeline step
`k + 1`, whose `run_agent_inline` result is `oracle (k + 1)`. -/
theorem pipeline_previous_substitution (cfg : List AgentStep) (userPrompt : String)
    (history : List OMsg) (oracle : Nat → String) (k : Nat)
    (hne : oracle (k + 1) ≠ "") :
    ((crewTrace cfg userPrompt history (fun _ => true) oracle).map (fun t => t.role))
        = cfg.map (fun a => a.role)
    ∧ ((crewTrace cfg userPrompt history (fun _ => true) oracle)[k + 1]?).map
          (fun t => t.input)
        = (cfg[k + 1]?).map
            (fun a => pyFormatPrevious a.input_prompt (oracle (k + 1)))
    ∧ ((crewTrace cfg userPrompt history (fun _ => true) oracle)[k]?).map
          (fun t => t.out)
        = (cfg[k]?).map (fun _ => oracle (k + 1)) := by
  have h1 := crewStepsAux_roles oracle history cfg 1 userPrompt
  have h2 := crewStepsAux_input oracle history cfg 1 userPrompt k (le_refl 1)
  have h3 := crewStepsAux_out oracle history cfg 1 userPrompt k
  rw [Nat.add_comm 1 k] at h2 h3
  rw [if_neg hne] at h2 h3
  exact ⟨h1, h2, h3⟩

/-- C5 witness: in a two-step pipeline where step 1 returns `"X"`, step 2's template
`"Answer: {previous}"` is rendered as `"Answer: X"`. -/
theorem pipeline_previous_substitution_witness :
    ((crewTrace [⟨"A", "m", "", "Start: {previous}"⟩, ⟨"B", "m", "", "Answer: {previous}"⟩]
        "Q" [] (fun _ => true) (fun _ => "X"))[1]?).map (fun t => t.input)
      = some "Answer: X" := by
  rw [(pipeline_previous_substitution
    [⟨"A", "m", "", "Start: {previous}"⟩, ⟨"B", "m", "", "Answer: {previous}"⟩]
    "Q" [] (fun _ => "X") 0 (by decide)).2.1]
  decide

/-- C2 (amended): for every pipeline step whose model call yields no text, the runner
substitutes the literal placeholder `"[No response]"` as that step's output — it appears
in that step's transcript block and is the `{previous}` value rendered into the next
step's input template — and the remaining steps still run (the trace covers the full
configuration, in order). -/
theorem empty_step_placeholder (cfg : List AgentStep) (userPrompt : String)
    (history : List OMsg) (oracle : Nat → String) (k : Nat)
    (hz : oracle (k + 1) = "") :
    ((crewTrace cfg userPrompt history (fun _ => true) oracle)[k]?).map (fun t => t.out)
        = (cfg[k]?).map (fun _ => "[No response]")
    ∧ ((crewTrace cfg userPrompt history (fun _ => true) oracle).map (fun t => t.role))
        = cfg.map (fun a => a.role)
    ∧ ((crewTrace cfg userPrompt history (fun _ => true) oracle)[k + 1]?).map
          (fun t => t.input)
        = (cfg[k + 1]?).map (fun a => pyFormatPrevious a.input_prompt "[No response]")
    ∧ ((crewTrace cfg userPrompt history (fun _ => true) oracle)[k]?).map crewBlock
        = (cfg[k]?).map
            (fun a => "### " ++ a.role ++ " Output\n" ++ "[No response]" ++ "\n\n---\n\n") := by
  have h1 := crewStepsAux_roles oracle history cfg 1 userPrompt
  have h2 := crewStepsAux_input oracle history cfg 1 userPrompt k (le_refl 1)
  have h3 := crewStepsAux_out oracle history cfg 1 userPrompt k
  rw [Nat.add_comm 1 k] at h2 h3
  rw [if_pos hz] at h2 h3
  have hrole : ((crewTrace cfg userPrompt history (fun _ => true) oracle)[k]?).map
      (fun t => t.role) = (cfg[k]?).map (fun a => a.role) := by
    have := congrArg (fun l => l[k]?) h1
    simpa [List.getElem?_map] using this
  have hout : ((crewTrace cfg userPrompt history (fun _ => true) oracle)[k]?).map
      (fun t => t.out) = (cfg[k]?).map (fun _ => "[No response]") := h3
  refine ⟨h3, h1, h2, ?_⟩
  cases htr : (crewTrace cfg userPrompt history (fun _ => true) oracle)[k]? with
  | none =>
    cases hcf : cfg[k]? with
    | none => rfl
    | some a =>
      rw [htr, hcf] at hrole
      simp at hrole
  | some t =>
    cases hcf : cfg[k]? with
    | none =>
      rw [htr, hcf] at hrole
      simp at hrole
    | some a =>
      rw [htr, hcf] at hrole hout
      have hr : t.role = a.role := Option.some.inj hrole
      have ho : t.out = "[No response]" := Option.some.inj hout
      show some (crewBlock t) = some _
      simp only [crewBlock, hr, ho]

/-- C2 witness: a step with empty model output leaves `"[No response]"` as its recorded
output in the trace. -/
theorem empty_step_placeholder_witness :
    ((crewTrace [⟨"A", "m", "", "Start: {previous}"⟩, ⟨"B", "m", "", "Answer: {previous}"⟩]
        "Q" [] (fun _ => true) (fun _ => ""))[0]?).map (fun t => t.out)
      = some "[No response]" := by
  rw [(empty_step_placeholder
    [⟨"A", "m", "", "Start: {previous}"⟩, ⟨"B", "m", "", "Answer: {previous}"⟩]
    "Q" [] (fun _ => "") 0 rfl).1]
  decide

/-- C2 counterexample to the claim as stated: when step 1 of a two-step pipeline yields
no text, step 2's template `"Answer: {previous}"` is rendered as
`"Answer: [No response]"` — the placeholder the code substitutes is `"[No response]"`
(src/ollama_gui.py line 301), not the claimed `"[No response from model]"`. -/
theorem empty_step_placeholder_cex :
    ((crewTrace [⟨"A", "m", "", "Start: {previous}"⟩, ⟨"B", "m", "", "Answer: {previous}"⟩]
        "Q" [] (fun _ => true) (fun _ => ""))[1]?).map (fun t => t.input)
      = some "Answer: [No response]"
    ∧ "Answer: [No response]" ≠ "Answer: [No response from model]" := by
  decide

/-- C1 (amended): `send` is not disabled or ignored while a worker is running — it
checks only that the stripped prompt is non-empty and, in crew mode, that a crew is
configured. Whenever those checks pass it always creates and starts a new worker,
regardless of `threadRunning`, so a send issued while a worker is running for the same
conversation puts a second worker in flight. -/
theorem send_not_guarded_by_running_worker (st : SendState)
    (hp : pyStrip st.inputText ≠ "")
    (hc : st.advancedMode = true → st.crewConfig ≠ []) :
    (ollamaSend st).started = true
    ∧ (ollamaSend st).inFlight = st.inFlight + 1
    ∧ ollamaSend { st with threadRunning := true }
        = ollamaSend { st with threadRunning := false } := by
  have hcond : ¬(st.advancedMode = true ∧ st.crewConfig = []) := by
    rintro ⟨ha, hb⟩
    exact hc ha hb
  exact ⟨by simp [ollamaSend, hp, hcond], by simp [ollamaSend, hp, hcond], rfl⟩

/-- C1 witness: a send with prompt `" go "` while a worker is running (`threadRunning =
true`, three workers in flight) starts a fourth worker. -/
theorem send_not_guarded_witness :
    (ollamaSend ⟨" go ", true, [⟨"A", "m", "", "{previous}"⟩], true, 3⟩).started = true
    ∧ (ollamaSend ⟨" go ", true, [⟨"A", "m", "", "{previous}"⟩], true, 3⟩).inFlight = 4 := by
  have h := send_not_guarded_by_running_worker
    ⟨" go ", true, [⟨"A", "m", "", "{previous}"⟩], true, 3⟩ (by decide) (by decide)
  exact ⟨h.1, h.2.1⟩

/-- C1 counterexample to the claim as stated: in a state where a worker is already
running for the current conversation (`threadRunning = true`, one worker in flight),
invoking `send` with prompt `"hi"` starts a second worker — two are then in flight
against the same conversation, because `send` never consults the running worker and the
send action is never disabled. -/
theorem send_second_worker_cex :
    (ollamaSend ⟨"hi", false, [], true, 1⟩).started = true
    ∧ (ollamaSend ⟨"hi", false, [], true, 1⟩).inFlight = 2
    ∧ (⟨"hi", false, [], true, 1⟩ : SendState).threadRunning = true := by
  decide

/-- C7: every generation started by `send` schedules exactly one
`QTimer.singleShot(600000, self.thread.stop)` — an automatic `stop()` 600000 ms, i.e.
ten minutes, after invocation — and once the stop flag is observed at check `k`, the
worker reads at most the first `k` lines of the stream and still reaches its terminal
`finished` outcome, so a generation with no `done` signal and no user cancellation does
not run forever. -/
theorem send_schedules_ten_minute_stop (st : SendState)
    (h : (ollamaSend st).started = true) :
    (ollamaSend st).timers = [600000]
    ∧ 600000 = 10 * 60 * 1000
    ∧ ∀ (flush : Nat → Bool) (k : Nat) (ls : List RespLine),
        (directRun (fun n => decide (n < k)) flush ⟨ls, none⟩).1
          = (directRun (fun n => decide (n < k)) flush ⟨ls.take k, none⟩).1
        ∧ ∃ text chunks,
            (directRun (fun n => decide (n < k)) flush ⟨ls, none⟩).2
              = DirectOutcome.finished text chunks := by
  refine ⟨?_, rfl, ?_⟩
  · by_cases hp : pyStrip st.inputText = ""
    · simp [ollamaSend, hp] at h
    · by_cases hcond : st.advancedMode = true ∧ st.crewConfig = []
      · simp [ollamaSend, hp, hcond] at h
      · simp [ollamaSend, hp, hcond]
  · intro flush k ls
    have hstate : (directLoop (fun n => decide (n < k)) flush ls 0 ⟨"", "", 0, []⟩).1
        = (directLoop (fun n => decide (n < k)) flush (ls.take k) 0 ⟨"", "", 0, []⟩).1 := by
      rw [directLoop_deadline_take flush k ls 0 ⟨"", "", 0, []⟩, Nat.sub_zero]
    exact ⟨by simp only [directRun]; rw [hstate], _, _, rfl⟩

/-- C7 witness: a concrete send (prompt `"hi"`, single-model mode) schedules exactly the
600000 ms stop watchdog. -/
theorem ten_minute_stop_witness :
    (ollamaSend ⟨"hi", false, [], false, 0⟩).timers = [600000] :=
  (send_schedules_ten_minute_stop ⟨"hi", false, [], false, 0⟩ (by decide)).1

/-- C8: when a retriever is configured and returns at least one document, `send` inserts
exactly one additional system-role message immediately before the final message of the
request list (in send's flow, the just-appended user message), whose content is the
fixed instruction prefix followed by the snippets joined by blank lines and truncated to
4000 characters; with no retriever configured the list is exactly `baseMessages`,
unchanged. -/
theorem rag_system_message_insertion (history : List OMsg) (prompt : String)
    (imageAttached : Bool) (ds : List String) (m : OMsg) (hds : ds ≠ [])
    (hlast : (baseMessages history prompt imageAttached).getLast? = some m) :
    buildMessages history prompt imageAttached (some ds)
      = (baseMessages history prompt imageAttached).dropLast
          ++ [⟨"system", ragInstruction ++ (String.intercalate "\n\n" ds).take 4000,
              false⟩, m]
    ∧ (buildMessages history prompt imageAttached (some ds)).length
        = (baseMessages history prompt imageAttached).length + 1
    ∧ buildMessages history prompt imageAttached none
        = baseMessages history prompt imageAttached := by
  have hne : baseMessages history prompt imageAttached ≠ [] := by
    intro h0
    rw [h0] at hlast
    simp at hlast
  have heq : buildMessages history prompt imageAttached (some ds)
      = (baseMessages history prompt imageAttached).dropLast
          ++ [⟨"system", ragInstruction ++ (String.intercalate "\n\n" ds).take 4000,
              false⟩, m] := by
    show (if ds = [] then _ else _) = _
    rw [if_neg hds, pyInsertNeg1_eq, hlast]
    rfl
  refine ⟨heq, ?_, rfl⟩
  rw [heq]
  have hpos : 0 < (baseMessages history prompt imageAttached).length :=
    List.length_pos.mpr hne
  simp [List.length_dropLast]
  omega

/-- C8 witness: with history `[user "hi"]` and one retrieved snippet `"doc"`, the
request list becomes the system message followed by the final user message. -/
theorem rag_insertion_witness :
    buildMessages [⟨"user", "hi", false⟩] "hi" false (some ["doc"])
      = [⟨"system", ragInstruction ++ (String.intercalate "\n\n" ["doc"]).take 4000,
          false⟩, ⟨"user", "hi", false⟩] := by
  rw [(rag_system_message_insertion [⟨"user", "hi", false⟩] "hi" false ["doc"]
    ⟨"user", "hi", false⟩ (by decide) rfl).1]
  rfl

/-- C10: the completion handler persists an assistant message if and only if the final
text is non-empty: an empty final text leaves the conversation's stored message list
unchanged, and a non-empty one appends exactly one assistant message (with the stopped
marker when the worker had been stopped). -/
theorem persist_iff_nonempty_response (msgs : List OMsg) (response : String)
    (stopped : Bool) :
    (onGenerationFinishedDB msgs response stopped = msgs ↔ response = "")
    ∧ (response ≠ "" →
        onGenerationFinishedDB msgs response stopped
          = msgs ++ [⟨"assistant",
              if stopped then response ++ stoppedMarker else response, false⟩]) := by
  refine ⟨⟨?_, ?_⟩, ?_⟩
  · intro h
    by_contra hne
    rw [onGenerationFinishedDB, if_neg hne] at h
    have := congrArg List.length h
    simp at this
  · intro h
    simp [onGenerationFinishedDB, h]
  · intro h
    simp [onGenerationFinishedDB, h]

/-- C10 witness: an empty final text persists nothing, a non-empty one appends exactly
the assistant message. -/
theorem persist_iff_nonempty_witness :
    onGenerationFinishedDB [] "" true = []
    ∧ onGenerationFinishedDB [] "ok" false = [⟨"assistant", "ok", false⟩] := by
  refine ⟨(persist_iff_nonempty_response [] "" true).1.mpr rfl, ?_⟩
  rw [(persist_iff_nonempty_response [] "ok" false).2 (by decide)]
  rfl

end OllamaGui
